import Mathlib

/-
Verification of the FinanceAI statement-extraction and analysis pipeline.

The definitions below are shallow embeddings of the JavaScript/TypeScript
sources of the repository:
  * server/services/pdfProcessor.ts     (credit-card statement parser)
  * fileProcessor (part_009)            (parseDate, removeDuplicateTransactions)
  * server/services/categorizer.js/.ts  (categorizeTransactions, getCategoryStats)
  * server/services/analysisService.js  (generateAnalysis, generateMonthlyTrend,
                                         generateRecommendations)

Modelling conventions:
  * JS numbers are modelled as exact rationals (ℚ) or integers (ℤ); the
    monetary values handled by the program are integral Chilean pesos, far
    inside the range where double arithmetic is exact.
  * A JS `Date` constructed as `new Date(year, month-1, day)` is modelled by
    its civil (year, month, day) triple after JS field normalisation
    (out-of-range fields roll over); `toISOString`/`new Date(iso)` round-trips
    are modelled as the identity on that triple.
  * JS regular expressions are modelled by a small backtracking matcher with
    the same priority semantics (leftmost alternative, greedy prefers longer,
    lazy prefers shorter, first overall match wins).
-/

namespace FinanceAI

set_option maxRecDepth 100000

/-! ### JS numeric helpers -/

/-- JS `Math.round`: `Math.round(x) = ⌊x + 1/2⌋` (also for negative `x`). -/
def roundJS (q : ℚ) : Int := ⌊q + 1/2⌋

/-- Rounding to 2 decimals, `Math.round(x * 100) / 100`. -/
def round2 (q : ℚ) : ℚ := (roundJS (q * 100) : ℚ) / 100

/-! ### Civil dates and the JS `Date` constructor -/

/-- Civil date, modelling a JS `Date` value by the (local) calendar triple
`(getFullYear(), getMonth() + 1, getDate())`. -/
structure JSDate where
  year : Int
  month : Int
  day : Int
deriving DecidableEq, Repr

/-- Gregorian leap-year test. -/
def isLeap (y : Int) : Bool := (y % 4 == 0 && y % 100 != 0) || y % 400 == 0

/-- Number of days of month `m` (1-based) of year `y`. -/
def daysInMonth (y m : Int) : Int :=
  if m = 2 then (if isLeap y then 29 else 28)
  else if m = 4 ∨ m = 6 ∨ m = 9 ∨ m = 11 then 30
  else 31

/-- Day-of-month rollover of the JS `Date` constructor: while the day is
outside `1 .. daysInMonth`, move it into an adjacent month.  The fuel `8`
is ample for the 0-99 day tokens this program can produce. -/
def normDays (fuel : Nat) (y m d : Int) : JSDate :=
  match fuel with
  | 0 => ⟨y, m, d⟩
  | fuel + 1 =>
    if d < 1 then
      let y' := if m = 1 then y - 1 else y
      let m' := if m = 1 then 12 else m - 1
      normDays fuel y' m' (d + daysInMonth y' m')
    else if daysInMonth y m < d then
      let y' := if m = 12 then y + 1 else y
      let m' := if m = 12 then 1 else m + 1
      normDays fuel y' m' (d - daysInMonth y m)
    else ⟨y, m, d⟩

/-- The JS `new Date(year, monthToken - 1, day)` constructor: `monthToken` is
the 1-based month token from the statement; JS first normalises the month
(rolling the year) and then the day.  `getTime()` of any date this program
builds is a finite number, so the source's `isNaN(date.getTime())` test is
always false and is not modelled. -/
def jsMakeDate (year monthToken day : Int) : JSDate :=
  let m0 := monthToken - 1
  normDays 8 (year + m0.ediv 12) (m0.emod 12 + 1) day

/-! ### JS regular expressions: a backtracking matcher with capture groups

Only the regex features used by the sources are supported: character
classes, single characters, concatenation, capture groups, and counted
repetition of a character class (greedy or lazy).  All patterns in the
sources are anchored (`^ ... $`), so matching requires consuming the whole
line.  The priority order of the matcher is the JS order: a greedy
repetition prefers consuming more, a lazy one prefers consuming less, and
the first overall success is returned. -/

/-- Capture list: entries `(group index, start offset, end offset)`. -/
abbrev Caps := List (Nat × Nat × Nat)

/-- Regex abstract syntax. -/
inductive Regex where
  | eps : Regex
  | cls : (Char → Bool) → Regex
  | cat : Regex → Regex → Regex
  | rep : (Char → Bool) → Nat → Option Nat → Bool → Regex
  | group : Nat → Regex → Regex

/-- Sequence a list of regexes. -/
def seqR (l : List Regex) : Regex := l.foldr .cat .eps

/-- Backtracking run of a counted repetition `p{lo,hi}` (lazy if `lz`),
in continuation-passing style; the continuation gets the rest of the
input, the current offset and the captures. -/
def repRun (p : Char → Bool) (lz : Bool) (lo : Nat) (hi : Option Nat)
    (s : List Char) (i : Nat) (caps : Caps)
    (k : List Char → Nat → Caps → Option Caps) : Option Caps :=
  match s with
  | [] => if lo = 0 then k [] i caps else none
  | c :: rest =>
    let consume : Unit → Option Caps := fun _ =>
      if hi = some 0 then none
      else if p c then repRun p lz (lo - 1) (hi.map (· - 1)) rest (i + 1) caps k
      else none
    if lo = 0 then
      if lz then (k (c :: rest) i caps) <|> consume ()
      else (consume ()) <|> k (c :: rest) i caps
    else consume ()

/-- Backtracking matcher in continuation-passing style. -/
def matchRe : Regex → List Char → Nat → Caps →
    (List Char → Nat → Caps → Option Caps) → Option Caps
  | .eps, s, i, caps, k => k s i caps
  | .cls p, s, i, caps, k =>
    match s with
    | [] => none
    | c :: rest => if p c then k rest (i + 1) caps else none
  | .cat r1 r2, s, i, caps, k =>
    matchRe r1 s i caps (fun s1 i1 caps1 => matchRe r2 s1 i1 caps1 k)
  | .rep p lo hi lz, s, i, caps, k => repRun p lz lo hi s i caps k
  | .group n r, s, i, caps, k =>
    matchRe r s i caps (fun s1 i1 caps1 => k s1 i1 ((n, i, i1) :: caps1))

/-- Anchored match (`^pattern$`) of a whole line, as done by `line.match(re)`
on the fully anchored patterns of the sources: `some caps` iff the whole
string matches, with the captures of the first (JS-priority) match. -/
def jsMatchFull (r : Regex) (s : String) : Option Caps :=
  matchRe r s.toList 0 [] (fun rest _ caps => if rest.isEmpty then some caps else none)

/-- Text of capture group `n` (empty string when the group is absent). -/
def capStr (s : String) (caps : Caps) (n : Nat) : String :=
  match caps.find? (fun t => t.1 = n) with
  | some (_, a, b) => String.mk ((s.toList.drop a).take (b - a))
  | none => ""

/-! Character classes appearing in the sources. -/

/-- JS `\d`. -/
def isDigitJS (c : Char) : Bool := '0' ≤ c && c ≤ '9'

/-- ASCII letters, the `A-Za-z` ranges. -/
def isAlphaJS (c : Char) : Bool := ('A' ≤ c && c ≤ 'Z') || ('a' ≤ c && c ≤ 'z')

/-- JS `\s` (the whitespace actually occurring in statement text). -/
def isSpaceJS (c : Char) : Bool :=
  c = ' ' || c = '\t' || c = '\n' || c = '\r' || c = '\x0b' || c = '\x0c'

/-- JS `\w`. -/
def isWordJS (c : Char) : Bool := isAlphaJS c || isDigitJS c || c = '_'

/-- JS `.` without the `s` flag: anything but a line terminator. -/
def isDotJS (c : Char) : Bool := !(c = '\n' || c = '\r')

/-- The `[\d.,]` class of amount tokens. -/
def isAmountChar (c : Char) : Bool := isDigitJS c || c = '.' || c = ','

/-- The `[A-Za-z\s]` class. -/
def isAlphaSpace (c : Char) : Bool := isAlphaJS c || isSpaceJS c

/-- The `[A-Za-z\s\/]` class. -/
def isAlphaSpaceSlash (c : Char) : Bool := isAlphaJS c || isSpaceJS c || c = '/'

/-- The `[A-Z]` class. -/
def isUpperJS (c : Char) : Bool := 'A' ≤ c && c ≤ 'Z'

/-- Single literal character. -/
def chrR (c : Char) : Regex := .cls (· = c)

/-! ### JS string and number helpers -/

/-- Value of a digit string (the `Number(...)` conversion applied to the
all-digit tokens produced by the date regexes). -/
def natOfDigits (l : List Char) : Nat :=
  l.foldl (fun n c => n * 10 + (c.toNat - '0'.toNat)) 0

/-- JS `Number(s)` restricted to the all-digit tokens this program feeds it. -/
def jsNumberOfDigits (s : String) : Int := natOfDigits s.toList

/-- Leading digit run of `parseFloat`: `none` when the input does not start
with a digit (JS `NaN`). -/
def parseFloatDigits (l : List Char) : Option Nat :=
  match l with
  | c :: _ => if isDigitJS c then some (natOfDigits (l.takeWhile isDigitJS)) else none
  | [] => none

/-- JS `parseFloat` on the dot-free tokens this program passes it (an
optional leading minus sign followed by characters from `[0-9,]`); the
parse stops at the first non-digit, and yields `none` for `NaN`. -/
def parseFloatIntStr (s : String) : Option Int :=
  match s.toList with
  | '-' :: rest => (parseFloatDigits rest).map (fun n => -(n : Int))
  | l => (parseFloatDigits l).map (fun n => (n : Int))

/-- Removal of the thousands separators, `replace(/\./g, "")`. -/
def stripDots (s : String) : String := String.mk (s.toList.filter (fun c => ¬ c = '.'))

/-- Splitting on a separator character, the `split("/")` of the sources
(restated over character lists so that concrete runs reduce in the kernel). -/
def splitChar (sep : Char) : List Char → List (List Char)
  | [] => [[]]
  | c :: rest =>
    let r := splitChar sep rest
    if c = sep then [] :: r
    else
      match r with
      | [] => [[c]]
      | h :: t => (c :: h) :: t

/-- JS `trim()`. -/
def jsTrim (l : List Char) : List Char :=
  ((l.dropWhile isSpaceJS).reverse.dropWhile isSpaceJS).reverse

/-- Fuelled worker for whitespace collapsing; the fuel (initialised with the
length of the list, which each step strictly decreases) only serves to make
the recursion structural, so that concrete runs reduce in the kernel. -/
def collapseWSF : Nat → List Char → List Char
  | _, [] => []
  | 0, l => l
  | fuel + 1, c :: rest =>
    if isSpaceJS c then ' ' :: collapseWSF fuel (rest.dropWhile isSpaceJS)
    else c :: collapseWSF fuel rest

/-- JS `replace(/\s+/g, " ")`: collapse every whitespace run to one space. -/
def collapseWSAux (l : List Char) : List Char := collapseWSF l.length l

/-- Fuelled worker for the global scan of `/[-]?[\d.,]+/g`. -/
def amountRunsF : Nat → List Char → List String
  | _, [] => []
  | 0, _ => []
  | fuel + 1, c :: rest =>
    if c = '-' then
      match rest with
      | [] => []
      | d :: ds =>
        if isAmountChar d then
          String.mk ('-' :: (d :: ds).takeWhile isAmountChar) ::
            amountRunsF fuel ((d :: ds).dropWhile isAmountChar)
        else amountRunsF fuel (d :: ds)
    else if isAmountChar c then
      String.mk (c :: rest.takeWhile isAmountChar) ::
        amountRunsF fuel (rest.dropWhile isAmountChar)
    else amountRunsF fuel rest

/-- All matches of the global regex `/[-]?[\d.,]+/g` in a string, in order
(used by the fallback grammar to pick the trailing amount out of the
description).  A `-` not followed by an amount character matches nothing
and the scan moves on by one character, as in JS. -/
def amountRunsAux (l : List Char) : List String := amountRunsF l.length l

/-- Fuelled worker for the global replacement of `/[-]?[\d.,]+/g`. -/
def removeAmountRunsF : Nat → List Char → List Char
  | _, [] => []
  | 0, l => l
  | fuel + 1, c :: rest =>
    if c = '-' then
      match rest with
      | [] => ['-']
      | d :: ds =>
        if isAmountChar d then removeAmountRunsF fuel ((d :: ds).dropWhile isAmountChar)
        else '-' :: removeAmountRunsF fuel (d :: ds)
    else if isAmountChar c then removeAmountRunsF fuel (rest.dropWhile isAmountChar)
    else c :: removeAmountRunsF fuel rest

/-- JS `replace(/[-]?[\d.,]+/g, "")`: drop every match of the same scan. -/
def removeAmountRunsAux (l : List Char) : List Char := removeAmountRunsF l.length l

/-! ### The credit-card statement parser (pdfProcessor.ts)

The six grammars of `parseCreditCardTransaction`, transliterated from the
anchored JS regexes tried in order (pattern 1 first). -/

/-- The date token `\d{1,2}\/\d{1,2}\/\d{4}`. -/
def dateRe4 : Regex := seqR [
  .rep isDigitJS 1 (some 2) false, chrR '/',
  .rep isDigitJS 1 (some 2) false, chrR '/',
  .rep isDigitJS 4 (some 4) false]

/-- Pattern 1, standard spaced format:
`^([A-Za-z\s]+?)\s+(\d{1,2}\/\d{1,2}\/\d{4})\s+(.+?)\s+([A-Z]\d+)\s+([\d.,]+)\s+([\d.,]+)\s+\d{2}\/\d{2}\s+\w+-\d{4}\s+([\d.,]+)$`. -/
def pattern1cc : Regex := seqR [
  .group 1 (.rep isAlphaSpace 1 none true),
  .rep isSpaceJS 1 none false,
  .group 2 dateRe4,
  .rep isSpaceJS 1 none false,
  .group 3 (.rep isDotJS 1 none true),
  .rep isSpaceJS 1 none false,
  .group 4 (seqR [.cls isUpperJS, .rep isDigitJS 1 none false]),
  .rep isSpaceJS 1 none false,
  .group 5 (.rep isAmountChar 1 none false),
  .rep isSpaceJS 1 none false,
  .group 6 (.rep isAmountChar 1 none false),
  .rep isSpaceJS 1 none false,
  .rep isDigitJS 2 (some 2) false, chrR '/', .rep isDigitJS 2 (some 2) false,
  .rep isSpaceJS 1 none false,
  .rep isWordJS 1 none false, chrR '-', .rep isDigitJS 4 (some 4) false,
  .rep isSpaceJS 1 none false,
  .group 7 (.rep isAmountChar 1 none false)]

/-- Pattern 2, condensed format:
`^([A-Za-z\s]+?)(\d{1,2}\/\d{1,2}\/\d{4})(.+?)\s?([T][A-Z]?\d*)([\d.,]+)([\d.,]+)(\d{2}\/\d{2})(\w+-\d{4})([\d.,]+)$`. -/
def pattern2cc : Regex := seqR [
  .group 1 (.rep isAlphaSpace 1 none true),
  .group 2 dateRe4,
  .group 3 (.rep isDotJS 1 none true),
  .rep isSpaceJS 0 (some 1) false,
  .group 4 (seqR [chrR 'T', .rep isUpperJS 0 (some 1) false, .rep isDigitJS 0 none false]),
  .group 5 (.rep isAmountChar 1 none false),
  .group 6 (.rep isAmountChar 1 none false),
  .group 7 (seqR [.rep isDigitJS 2 (some 2) false, chrR '/', .rep isDigitJS 2 (some 2) false]),
  .group 8 (seqR [.rep isWordJS 1 none false, chrR '-', .rep isDigitJS 4 (some 4) false]),
  .group 9 (.rep isAmountChar 1 none false)]

/-- Pattern 3, the `S/I` (unidentified location) format:
`^(S\/I)(\d{1,2}\/\d{1,2}\/\d{4})(.+?)\s([T])([\d.,]+)([\d.,]+)(\d{2}\/\d{2})(\w+-\d{4})([\d.,]+)$`. -/
def pattern3cc : Regex := seqR [
  .group 1 (seqR [chrR 'S', chrR '/', chrR 'I']),
  .group 2 dateRe4,
  .group 3 (.rep isDotJS 1 none true),
  .cls isSpaceJS,
  .group 4 (chrR 'T'),
  .group 5 (.rep isAmountChar 1 none false),
  .group 6 (.rep isAmountChar 1 none false),
  .group 7 (seqR [.rep isDigitJS 2 (some 2) false, chrR '/', .rep isDigitJS 2 (some 2) false]),
  .group 8 (seqR [.rep isWordJS 1 none false, chrR '-', .rep isDigitJS 4 (some 4) false]),
  .group 9 (.rep isAmountChar 1 none false)]

/-- A possibly negative amount token `-?[\d.,]+`. -/
def negAmountRe : Regex :=
  seqR [.rep (· = '-') 0 (some 1) false, .rep isAmountChar 1 none false]

/-- Pattern 4, cityless format starting with the date:
`^(\d{1,2}\/\d{1,2}\/\d{4})(.+?)\s([T])(-?[\d.,]+)(-?[\d.,]+)(\d{2}\/\d{2})(\w+-\d{4})(-?[\d.,]+)$`. -/
def pattern4cc : Regex := seqR [
  .group 1 dateRe4,
  .group 2 (.rep isDotJS 1 none true),
  .cls isSpaceJS,
  .group 3 (chrR 'T'),
  .group 4 negAmountRe,
  .group 5 negAmountRe,
  .group 6 (seqR [.rep isDigitJS 2 (some 2) false, chrR '/', .rep isDigitJS 2 (some 2) false]),
  .group 7 (seqR [.rep isWordJS 1 none false, chrR '-', .rep isDigitJS 4 (some 4) false]),
  .group 8 negAmountRe]

/-- Pattern 5, the reversal (anulación) variant; its source text is
identical to pattern 4. -/
def pattern5cc : Regex := pattern4cc

/-- Pattern 6, the maximally permissive fallback:
`^([A-Za-z\s\/]*?)(\d{1,2}\/\d{1,2}\/\d{4})(.+?)([-]?[\d.,]{3,})$`. -/
def pattern6cc : Regex := seqR [
  .group 1 (.rep isAlphaSpaceSlash 0 none true),
  .group 2 dateRe4,
  .group 3 (.rep isDotJS 1 none true),
  .group 4 (seqR [.rep (· = '-') 0 (some 1) false, .rep isAmountChar 3 none false])]

/-- Raw transaction produced by the PDF processors; the ISO date string of
the source is modelled by the civil date triple. -/
structure RawTransaction where
  date : JSDate
  description : String
  amount : Int
deriving DecidableEq, Repr

/-- Shared tail of `parseCreditCardTransaction` after field extraction:
date parse and range check, description cleanup and length check, amount
normalisation, rejection of non-positive amounts, and the final sign flip
(credit-card transactions are stored as negative expenses). -/
def mkCreditTransaction (dateStr rawDescription finalAmount : String) : Option RawTransaction :=
  let parts := splitChar '/' dateStr.toList
  let day : Int := natOfDigits (parts.getD 0 [])
  let month : Int := natOfDigits (parts.getD 1 [])
  let year : Int := natOfDigits (parts.getD 2 [])
  let date := jsMakeDate year month day
  if month < 1 ∨ 12 < month ∨ day < 1 ∨ 31 < day then none
  else
    let description := String.mk (collapseWSAux (jsTrim rawDescription.toList))
    if description.length < 3 then none
    else
      match parseFloatIntStr (stripDots finalAmount) with
      | none => none
      | some amount =>
        if amount ≤ 0 then none
        else some ⟨date, description, -amount⟩

/-- Field extraction per pattern: which capture groups hold the date, the
raw description and the final amount (the city is only logged by the
source and does not reach the returned transaction).  Pattern 6
re-extracts the amount as the last numeric run of the description and
strips all numeric runs from the description. -/
def extractFields (patternUsed : Nat) (line : String) (m : Caps) : String × String × String :=
  if patternUsed = 1 then (capStr line m 2, capStr line m 3, capStr line m 7)
  else if patternUsed = 2 ∨ patternUsed = 3 then (capStr line m 2, capStr line m 3, capStr line m 9)
  else if patternUsed = 4 ∨ patternUsed = 5 then (capStr line m 1, capStr line m 2, capStr line m 8)
  else
    let rawDescription := capStr line m 3
    match (amountRunsAux rawDescription.toList).getLast? with
    | some lastNum =>
      (capStr line m 2,
       String.mk (jsTrim (collapseWSAux (removeAmountRunsAux rawDescription.toList))),
       lastNum)
    | none => (capStr line m 2, rawDescription, capStr line m 4)

/-- The ordered grammar cascade. -/
def ccPatterns : List Regex :=
  [pattern1cc, pattern2cc, pattern3cc, pattern4cc, pattern5cc, pattern6cc]

/-- First pattern (1-based index) whose anchored match succeeds. -/
def firstCCMatchAux (i : Nat) : List Regex → String → Option (Nat × Caps)
  | [], _ => none
  | p :: ps, line =>
    match jsMatchFull p line with
    | some m => some (i, m)
    | none => firstCCMatchAux (i + 1) ps line

/-- The credit-card line parser `parseCreditCardTransaction`: try the six
grammars in order, commit to the first anchored match, extract the fields
of that grammar, then validate and build the transaction. -/
def parseCreditCardTransaction (line : String) : Option RawTransaction :=
  match firstCCMatchAux 1 ccPatterns line with
  | none => none
  | some (patternUsed, m) =>
    let f := extractFields patternUsed line m
    mkCreditTransaction f.1 f.2.1 f.2.2

/-! ### The generic file processor (part_009): `parseDate`

This `parseDate` validates its numbers and additionally requires the
constructed `Date` to round-trip to the same day/month/year. -/

/-- The `[\/\-]` separator class. -/
def sepClass (c : Char) : Bool := c = '/' || c = '-'

/-- Format 1 and 2 of `parseDate`: `^(\d{1,2})[\/\-](\d{1,2})[\/\-](\d{4})$`
(the source lists the same regex twice, for DD/MM/YYYY and MM/DD/YYYY). -/
def fmtDMY4 : Regex := seqR [
  .group 1 (.rep isDigitJS 1 (some 2) false), .cls sepClass,
  .group 2 (.rep isDigitJS 1 (some 2) false), .cls sepClass,
  .group 3 (.rep isDigitJS 4 (some 4) false)]

/-- Format 3 of `parseDate`: `^(\d{4})[\/\-](\d{1,2})[\/\-](\d{1,2})$`. -/
def fmtYMD : Regex := seqR [
  .group 1 (.rep isDigitJS 4 (some 4) false), .cls sepClass,
  .group 2 (.rep isDigitJS 1 (some 2) false), .cls sepClass,
  .group 3 (.rep isDigitJS 1 (some 2) false)]

/-- Format 4 of `parseDate`: `^(\d{1,2})[\/\-](\d{1,2})[\/\-](\d{2})$`. -/
def fmtDMY2 : Regex := seqR [
  .group 1 (.rep isDigitJS 1 (some 2) false), .cls sepClass,
  .group 2 (.rep isDigitJS 1 (some 2) false), .cls sepClass,
  .group 3 (.rep isDigitJS 2 (some 2) false)]

/-- Shared validation tail of `parseDate`: the range checks, the `Date`
construction, and the day/month/year round-trip test (`getFullYear`,
`getMonth`, `getDate` must reproduce the parsed numbers). -/
def validateDMY (day month year : Int) : Option JSDate :=
  if 1 ≤ month ∧ month ≤ 12 ∧ 1 ≤ day ∧ day ≤ 31 ∧ 1900 ≤ year ∧ year ≤ 2100 then
    let date := jsMakeDate year month day
    if date = ⟨year, month, day⟩ then some date else none
  else none

/-- Attempt with formats 1/2: prefer the DD/MM/YYYY reading, fall back to
MM/DD/YYYY, otherwise continue with the next format. -/
def parseDateAttempt12 (clean : String) : Option JSDate :=
  match jsMatchFull fmtDMY4 clean with
  | none => none
  | some m =>
    let first : Int := natOfDigits (capStr clean m 1).toList
    let second : Int := natOfDigits (capStr clean m 2).toList
    let fullYear : Int := natOfDigits (capStr clean m 3).toList
    if second ≤ 12 ∧ first ≤ 31 then validateDMY first second fullYear
    else if first ≤ 12 ∧ second ≤ 31 then validateDMY second first fullYear
    else none

/-- Attempt with format 3, the YYYY/MM/DD reading. -/
def parseDateAttemptY (clean : String) : Option JSDate :=
  match jsMatchFull fmtYMD clean with
  | none => none
  | some m =>
    validateDMY (natOfDigits (capStr clean m 3).toList)
      (natOfDigits (capStr clean m 2).toList)
      (natOfDigits (capStr clean m 1).toList)

/-- Attempt with format 4, the DD/MM/YY reading with the year mapped to 20XX. -/
def parseDateAttempt2 (clean : String) : Option JSDate :=
  match jsMatchFull fmtDMY2 clean with
  | none => none
  | some m =>
    validateDMY (natOfDigits (capStr clean m 1).toList)
      (natOfDigits (capStr clean m 2).toList)
      ((natOfDigits (capStr clean m 3).toList : Int) + 2000)

/-- The cleaning step `dateStr.replace(/[^\d\/\-]/g, "")`. -/
def cleanDateString (s : String) : String :=
  String.mk (s.toList.filter (fun c => isDigitJS c || c = '/' || c = '-'))

/-- The `parseDate` helper of the generic file processor: clean the token,
then try the four formats in order (the first two are the same regex with
the same interpretation logic), where a failed validation falls through to
the next format. -/
def parseDate (dateStr : String) : Option JSDate :=
  let clean := cleanDateString dateStr
  match parseDateAttempt12 clean with
  | some d => some d
  | none =>
    match parseDateAttempt12 clean with
    | some d => some d
    | none =>
      match parseDateAttemptY clean with
      | some d => some d
      | none => parseDateAttempt2 clean

/-! ### The generic file processor (part_009): deduplication -/

/-- Raw transaction of the generic file processor; its `date` field is the
ISO string of the source, kept as an uninterpreted string here because the
deduplication key is built by string concatenation. -/
structure FPTransaction where
  date : String
  description : String
  amount : Int
deriving DecidableEq, Repr

/-- The deduplication key of a transaction, the template literal
`date + "_" + description + "_" + amount` of the source. -/
def txnKey (t : FPTransaction) : String :=
  t.date ++ "_" ++ t.description ++ "_" ++ toString t.amount

/-- The `filter` over a growing `seen` set of keys. -/
def removeDuplicateTransactionsAux (seen : List String) :
    List FPTransaction → List FPTransaction
  | [] => []
  | t :: ts =>
    if txnKey t ∈ seen then removeDuplicateTransactionsAux seen ts
    else t :: removeDuplicateTransactionsAux (txnKey t :: seen) ts

/-- The `removeDuplicateTransactions` helper: keep a transaction iff its
key has not been seen before. -/
def removeDuplicateTransactions (ts : List FPTransaction) : List FPTransaction :=
  removeDuplicateTransactionsAux [] ts

/-- Reference characterisation: keep the first occurrence of every key, in
input order. -/
def keepFirstByKey : List FPTransaction → List FPTransaction
  | [] => []
  | t :: ts => t :: keepFirstByKey (ts.filter (fun u => ¬ txnKey u = txnKey t))
termination_by l => l.length
decreasing_by simpa using Nat.lt_succ_of_le (List.length_filter_le _ ts)

/-! ### The categorizer (categorizer.js) -/

/-- JS `String.prototype.includes` (substring containment). -/
def containsSubAux (sub : List Char) : List Char → Bool
  | [] => sub.isEmpty
  | c :: rest => sub.isPrefixOf (c :: rest) || containsSubAux sub rest

/-- JS `s.includes(sub)`. -/
def jsIncludes (s sub : String) : Bool := containsSubAux sub.toList s.toList

/-- JS `toUpperCase` on the ASCII text this program handles. -/
def toUpperJS (s : String) : String := String.mk (s.toList.map Char.toUpper)

/-- The category keyword table of categorizer.js, in source order. -/
def categoryRules : List (String × List String) := [
  ("Food & Dining",
    ["SUPERMERCADO", "JUMBO", "LIDER", "WALMART", "TARGET", "COSTCO",
     "RESTAURANT", "MCDONALDS", "BURGER", "PIZZA", "STARBUCKS", "CAFE",
     "FOOD", "DINING", "KITCHEN", "BAKERY", "DELI", "GROCERY"]),
  ("Transportation",
    ["SHELL", "COPEC", "EXXON", "BP", "CHEVRON", "MOBIL",
     "UBER", "LYFT", "TAXI", "METRO", "BUS", "TRAIN",
     "GAS", "FUEL", "PARKING", "TOLL", "TRANSPORT"]),
  ("Entertainment",
    ["NETFLIX", "SPOTIFY", "AMAZON PRIME", "DISNEY", "HULU",
     "CINEMA", "THEATER", "CONCERT", "STEAM", "PLAYSTATION",
     "XBOX", "NINTENDO", "ENTERTAINMENT", "MOVIE", "MUSIC"]),
  ("Health & Medical",
    ["FARMACIA", "PHARMACY", "CVS", "WALGREENS", "HOSPITAL",
     "CLINICA", "CLINIC", "DOCTOR", "MEDICAL", "HEALTH",
     "DENTAL", "VISION", "INSURANCE", "MEDICARE"]),
  ("Education",
    ["UNIVERSIDAD", "UNIVERSITY", "COLLEGE", "SCHOOL",
     "INSTITUTO", "TUITION", "EDUCATION", "STUDENT",
     "TEXTBOOK", "COURSE", "TRAINING"]),
  ("Shopping",
    ["AMAZON", "EBAY", "WALMART", "TARGET", "BEST BUY",
     "APPLE STORE", "STORE", "MALL", "SHOPPING",
     "CLOTHES", "FASHION", "ELECTRONICS"]),
  ("Utilities",
    ["ELECTRIC", "GAS COMPANY", "WATER", "INTERNET",
     "PHONE", "CABLE", "UTILITY", "POWER", "ENERGY"]),
  ("Banking & Finance",
    ["BANK", "ATM", "TRANSFER", "FEE", "INTEREST",
     "CREDIT CARD", "LOAN", "MORTGAGE", "INVESTMENT"]),
  ("Income",
    ["SALARY", "PAYROLL", "WAGE", "BONUS", "REFUND",
     "DIVIDEND", "INTEREST EARNED", "CASHBACK"])]

/-- First-match-wins keyword classification of a description. -/
def classifyTransaction (description : String) : String :=
  let upperDesc := toUpperJS description
  match categoryRules.find? (fun rule => rule.2.any (fun keyword => jsIncludes upperDesc keyword)) with
  | some rule => rule.1
  | none => "Other"

/-- Transaction type tag, the `'income' | 'expense'` strings of the source. -/
inductive TxType where
  | income
  | expense
deriving DecidableEq, Repr

/-- The record `{date, description, amount}` consumed by
`categorizeTransactions` (dates already in civil form, see the header). -/
structure TxRecord where
  date : JSDate
  description : String
  amount : ℚ
deriving DecidableEq, Repr

/-- Output record of the categorizer. -/
structure CategorizedTransaction where
  id : String
  date : JSDate
  description : String
  amount : ℚ
  category : String
  type : TxType
  originalAmount : ℚ
deriving DecidableEq, Repr

/-- The `categorizeTransactions` map.  Ids come from
`'txn_' + Math.random().toString(36).substr(2, 9)`; the process-wide PRNG
is modelled by a stream `rand` of draws together with the number `s` of
draws made so far (the PRNG state), which every call advances. -/
def categorizeTransactions (rand : Nat → String) :
    List TxRecord → Nat → List CategorizedTransaction × Nat
  | [], s => ([], s)
  | t :: ts, s =>
    let c : CategorizedTransaction :=
      { id := "txn_" ++ rand s
        date := t.date
        description := t.description
        amount := |t.amount|
        category := classifyTransaction t.description
        type := if 0 ≤ t.amount then .income else .expense
        originalAmount := t.amount }
    let r := categorizeTransactions rand ts (s + 1)
    (c :: r.1, r.2)

/-! ### The analysis service (analysisService.js) and the TS category stats -/

/-- View of a categorized transaction restricted to the fields the analysis
functions actually read (JS functions access only these properties). -/
structure ATxn where
  amount : ℚ
  category : String
  type : TxType
  date : JSDate
deriving DecidableEq, Repr

/-- Projection dropping the id and the unread fields. -/
def toATxn (t : CategorizedTransaction) : ATxn :=
  ⟨t.amount, t.category, t.type, t.date⟩

/-- Stable insertion of `x` into `l`, where `lt x y` means the comparator
puts `x` strictly before `y`. -/
def insSorted (lt : α → α → Bool) (x : α) : List α → List α
  | [] => [x]
  | y :: ys => if lt x y then x :: y :: ys else y :: insSorted lt x ys

/-- JS `Array.prototype.sort` with a consistent comparator: a stable sort. -/
def jsSort (lt : α → α → Bool) (l : List α) : List α :=
  l.foldl (fun acc x => insSorted lt x acc) []

/-- TS `CategoryStats` record. -/
structure CategoryStatTS where
  name : String
  amount : ℚ
  percentage : ℚ
  color : String
  transactionCount : Nat
deriving DecidableEq, Repr

/-- Color palette of categorizer.ts. -/
def categoryColorsTS : List String :=
  ["#3B82F6", "#10B981", "#F59E0B", "#EF4444",
   "#8B5CF6", "#06B6D4", "#F97316", "#84CC16",
   "#EC4899", "#6B7280"]

/-- Accumulation step of the per-category totals object: JS object keys
keep insertion order, so the accumulator is an association list; a new
category is appended, an existing one updated in place. -/
def upsertCat : List (String × ℚ × Nat) → String → ℚ → List (String × ℚ × Nat)
  | [], cat, amt => [(cat, amt, 1)]
  | (k, a, n) :: rest, cat, amt =>
    if k = cat then (k, a + amt, n + 1) :: rest
    else (k, a, n) :: upsertCat rest cat amt

/-- The TS `getCategoryStats`: totals and counts per category over the
expense transactions, percentage of the unrounded amount against the total
expenses, rounded amount, palette color by entry index, sorted by amount
descending. -/
def getCategoryStats (transactions : List ATxn) : List CategoryStatTS :=
  let expenseTransactions := transactions.filter (fun t => t.type == TxType.expense)
  let totalExpenses := expenseTransactions.foldl (fun s t => s + t.amount) 0
  let categoryTotals := expenseTransactions.foldl
    (fun acc t => upsertCat acc t.category t.amount) []
  let stats := categoryTotals.enum.map (fun e =>
    { name := e.2.1
      amount := round2 e.2.2.1
      percentage := if 0 < totalExpenses then e.2.2.1 / totalExpenses * 100 else 0
      color := categoryColorsTS.getD (e.1 % categoryColorsTS.length) ""
      transactionCount := e.2.2.2 : CategoryStatTS })
  jsSort (fun a b => b.amount < a.amount) stats

/-- JS `CategoryStat` record of categorizer.js (no transaction count). -/
structure CategoryStatJS where
  name : String
  amount : ℚ
  percentage : ℚ
  color : String
deriving DecidableEq, Repr

/-- Fixed color table of categorizer.js. -/
def categoryColorsJS : List (String × String) := [
  ("Food & Dining", "hsl(217 91% 60%)"),
  ("Transportation", "hsl(158 64% 52%)"),
  ("Entertainment", "hsl(43 74% 66%)"),
  ("Health & Medical", "hsl(27 87% 67%)"),
  ("Education", "hsl(309 78% 73%)"),
  ("Shopping", "hsl(200 50% 60%)"),
  ("Utilities", "hsl(350 70% 65%)"),
  ("Banking & Finance", "hsl(270 60% 70%)"),
  ("Income", "hsl(120 50% 55%)"),
  ("Other", "hsl(0 0% 60%)")]

/-- Amount-only upsert for the JS `categoryTotals` object. -/
def upsertAmt : List (String × ℚ) → String → ℚ → List (String × ℚ)
  | [], cat, amt => [(cat, amt)]
  | (k, a) :: rest, cat, amt =>
    if k = cat then (k, a + amt) :: rest
    else (k, a) :: upsertAmt rest cat amt

/-- The JS `getCategoryStats` used by `generateAnalysis`. -/
def getCategoryStatsJS (transactions : List ATxn) : List CategoryStatJS :=
  let categoryTotals := transactions.foldl
    (fun acc t => if t.type == TxType.expense then upsertAmt acc t.category t.amount else acc) []
  let totalExpenses := categoryTotals.foldl (fun s e => s + e.2) 0
  let categoryData := categoryTotals.map (fun e =>
    { name := e.1
      amount := e.2
      percentage := if 0 < totalExpenses then e.2 / totalExpenses * 100 else 0
      color := ((categoryColorsJS.find? (fun p => p.1 == e.1)).map (fun p => p.2)).getD
        "hsl(0 0% 60%)" : CategoryStatJS })
  jsSort (fun a b => b.amount < a.amount) categoryData

/-- Month bucket key `YYYY-MM`, from `getFullYear()` and the zero-padded
`getMonth() + 1`. -/
def pad2 (n : Int) : String := if n < 10 then "0" ++ toString n else toString n

/-- Month key of a transaction date. -/
def monthKeyOf (d : JSDate) : String := toString d.year ++ "-" ++ pad2 d.month

/-- The en-US short month names of `toLocaleDateString`. -/
def monthShortName (m : Int) : String :=
  if m = 1 then "Jan" else if m = 2 then "Feb" else if m = 3 then "Mar"
  else if m = 4 then "Apr" else if m = 5 then "May" else if m = 6 then "Jun"
  else if m = 7 then "Jul" else if m = 8 then "Aug" else if m = 9 then "Sep"
  else if m = 10 then "Oct" else if m = 11 then "Nov" else if m = 12 then "Dec"
  else ""

/-- The `formatMonth` helper: split the `YYYY-MM` key, rebuild a date, and
render it as `Mmm YYYY` (the en-US short month and the numeric year). -/
def formatMonth (monthKey : String) : String :=
  let parts := splitChar '-' monthKey.toList
  let y : Int := natOfDigits (parts.getD 0 [])
  let m : Int := natOfDigits (parts.getD 1 [])
  let d := jsMakeDate y m 1
  monthShortName d.month ++ " " ++ toString d.year

/-- Code-unit lexicographic comparison of strings, modelling the default
`localeCompare` ordering on the ASCII labels this program produces. -/
def strLtAux : List Char → List Char → Bool
  | [], [] => false
  | [], _ :: _ => true
  | _ :: _, [] => false
  | a :: as, b :: bs =>
    if a.toNat < b.toNat then true
    else if b.toNat < a.toNat then false
    else strLtAux as bs

/-- String comparison used for `a.month.localeCompare(b.month)`. -/
def strLtB (a b : String) : Bool := strLtAux a.toList b.toList

/-- Entry of the monthly trend array (amounts pass through `Math.round`). -/
structure MonthEntry where
  month : String
  income : Int
  expenses : Int
deriving DecidableEq, Repr

/-- Bucket update for the monthly data object. -/
def addMonth : List (String × ℚ × ℚ) → String → Bool → ℚ → List (String × ℚ × ℚ)
  | [], key, isInc, amt => if isInc then [(key, amt, 0)] else [(key, 0, amt)]
  | (k, i, e) :: rest, key, isInc, amt =>
    if k = key then (if isInc then (k, i + amt, e) else (k, i, e + amt)) :: rest
    else (k, i, e) :: addMonth rest key isInc amt

/-- The `generateMonthlyTrend` helper: bucket by month key, format the
label, round the sums, sort by `localeCompare` of the formatted label
(string order), and keep the last 6 entries (`slice(-6)`). -/
def generateMonthlyTrend (transactions : List ATxn) : List MonthEntry :=
  let monthlyData := transactions.foldl
    (fun acc t => addMonth acc (monthKeyOf t.date) (t.type == TxType.income) t.amount) []
  let monthlyArray := monthlyData.map (fun e =>
    { month := formatMonth e.1, income := roundJS e.2.1, expenses := roundJS e.2.2 : MonthEntry })
  let sorted := jsSort (fun a b => strLtB a.month b.month) monthlyArray
  sorted.drop (sorted.length - 6)

/-- Count upsert for the `transactionFrequency` object. -/
def upsertCount : List (String × Nat) → String → List (String × Nat)
  | [], cat => [(cat, 1)]
  | (k, n) :: rest, cat =>
    if k = cat then (k, n + 1) :: rest
    else (k, n) :: upsertCount rest cat

/-- Chronological (ms-difference) comparator on dates. -/
def dateLtB (a b : JSDate) : Bool :=
  decide (a.year < b.year ∨ (a.year = b.year ∧
    (a.month < b.month ∨ (a.month = b.month ∧ a.day < b.day))))

/-- The full analysis record returned by `generateAnalysis`. -/
structure Analysis where
  totalIncome : ℚ
  totalExpenses : ℚ
  totalSavings : ℚ
  savingsRate : ℚ
  categories : List CategoryStatJS
  monthlyTrend : List MonthEntry
  transactionCount : Nat
  averageTransactionAmount : ℚ
  transactionFrequency : List (String × Nat)
  dateRange : Option (JSDate × JSDate)
deriving DecidableEq, Repr

/-- The `generateAnalysis` aggregator. -/
def generateAnalysis (transactions : List ATxn) : Analysis :=
  if transactions.isEmpty then
    { totalIncome := 0, totalExpenses := 0, totalSavings := 0, savingsRate := 0,
      categories := [], monthlyTrend := [], transactionCount := 0,
      averageTransactionAmount := 0, transactionFrequency := [], dateRange := none }
  else
    let income := (transactions.filter (fun t => decide (0 < t.amount))).foldl
      (fun s t => s + t.amount) 0
    let expenses := |(transactions.filter (fun t => decide (t.amount < 0))).foldl
      (fun s t => s + t.amount) 0|
    let savings := income - expenses
    let savingsRate := if 0 < income then savings / income * 100 else 0
    let categories := getCategoryStatsJS transactions
    let monthlyTrend := generateMonthlyTrend transactions
    let averageTransactionAmount :=
      if transactions.length = 0 then 0
      else (transactions.foldl (fun s t => s + |t.amount|) 0) / (transactions.length : ℚ)
    let transactionFrequency := transactions.foldl
      (fun acc t => upsertCount acc (if t.category = "" then "Otros" else t.category)) []
    let dates := jsSort dateLtB (transactions.map (fun t => t.date))
    let dateRange :=
      match dates with
      | [] => none
      | d :: _ => some (d, dates.getLastD d)
    { totalIncome := round2 income
      totalExpenses := round2 expenses
      totalSavings := round2 savings
      savingsRate := round2 savingsRate
      categories := categories
      monthlyTrend := monthlyTrend
      transactionCount := transactions.length
      averageTransactionAmount := round2 averageTransactionAmount
      transactionFrequency := transactionFrequency
      dateRange := dateRange }

/-! ### The recommendation generator (analysisService.js) -/

/-- One recommendation record. -/
structure Recommendation where
  id : String
  type : String
  title : String
  description : String
  impact : String
  priority : String
deriving DecidableEq, Repr

/-- Idealised decimal rendering of `toFixed(1)`. -/
def qToFixed1 (q : ℚ) : String :=
  let n := roundJS (q * 10)
  let a := n.natAbs
  (if n < 0 then "-" else "") ++ toString (a / 10) ++ "." ++ toString (a % 10)

/-- The low-savings-rate recommendation. -/
def savingsLowRec (metrics : Analysis) : Recommendation :=
  { id := "savings_rate_low", type := "savings",
    title := "Improve Your Savings Rate",
    description := "Your current savings rate is " ++ qToFixed1 metrics.savingsRate ++
      "%. Financial experts recommend saving at least 20% of your income.",
    impact := "Increase to 20% to save an additional $" ++
      toString (roundJS (metrics.totalIncome * (20/100) - metrics.totalSavings)) ++ " monthly",
    priority := "high" }

/-- The food-and-dining alert. -/
def foodRec (c : CategoryStatJS) : Recommendation :=
  { id := "food_dining_high", type := "savings",
    title := "Reduce Food & Dining Expenses",
    description := "You\x27re spending " ++ qToFixed1 c.percentage ++
      "% of your expenses on food and dining. Consider meal planning and cooking at home more often.",
    impact := "Save $" ++ toString (roundJS (c.amount * (20/100))) ++ " monthly",
    priority := "medium" }

/-- The transportation alert. -/
def transportRec (c : CategoryStatJS) : Recommendation :=
  { id := "transportation_high", type := "savings",
    title := "Optimize Transportation Costs",
    description := "Transportation costs are " ++ qToFixed1 c.percentage ++
      "% of your expenses. Consider carpooling, public transport, or working from home more often.",
    impact := "Save $" ++ toString (roundJS (c.amount * (15/100))) ++ " monthly",
    priority := "medium" }

/-- The entertainment alert. -/
def entertainmentRec (c : CategoryStatJS) : Recommendation :=
  { id := "entertainment_high", type := "savings",
    title := "Review Entertainment Subscriptions",
    description := "Entertainment expenses are " ++ qToFixed1 c.percentage ++
      "% of your budget. Review and cancel unused subscriptions.",
    impact := "Save $" ++ toString (roundJS (c.amount * (30/100))) ++ " monthly",
    priority := "low" }

/-- The praise recommendation pushed for a high savings rate. -/
def investmentRec : Recommendation :=
  { id := "investment_opportunity", type := "investment",
    title := "Emergency Fund Priority",
    description := "Great savings rate! Focus on building a 6-month emergency fund before investing.",
    impact := "Financial security and peace of mind",
    priority := "high" }

/-- The index-fund recommendation nested under the high-savings branch. -/
def indexFundRec : Recommendation :=
  { id := "index_fund_investment", type := "investment",
    title := "Consider Index Fund Investment",
    description := "With a solid emergency fund, consider low-cost index funds for long-term growth.",
    impact := "Potential 7-10% annual returns",
    priority := "medium" }

/-- The unconditional budget recommendation. -/
def budgetRec : Recommendation :=
  { id := "budget_tracking", type := "budget",
    title := "Set Category Budgets",
    description := "Based on your spending patterns, consider setting monthly budgets for each category to stay on track.",
    impact := "Better financial control and awareness",
    priority := "medium" }

/-- Category-specific recommendations of one top category (the three
independent threshold tests of the source body). -/
def catRecsFor (c : CategoryStatJS) : List Recommendation :=
  (if c.name = "Food & Dining" ∧ 15 < c.percentage then [foodRec c] else []) ++
  (if c.name = "Transportation" ∧ 20 < c.percentage then [transportRec c] else []) ++
  (if c.name = "Entertainment" ∧ 10 < c.percentage then [entertainmentRec c] else [])

/-- The `generateRecommendations` rule set (the `transactions` argument is
unused by the source body); output capped at 6 entries. -/
def generateRecommendations (_transactions : List ATxn) (metrics : Analysis) :
    List Recommendation :=
  let savingsRecs := if metrics.savingsRate < 20 then [savingsLowRec metrics] else []
  let topCategories := metrics.categories.take 3
  let categoryRecs := topCategories.flatMap catRecsFor
  let investmentRecs :=
    if 20 < metrics.savingsRate then
      investmentRec ::
        (if metrics.totalExpenses * 6 < metrics.totalSavings then [indexFundRec] else [])
    else []
  ((savingsRecs ++ categoryRecs ++ investmentRecs) ++ [budgetRec]).take 6

/-! ### Concrete statement lines and inputs used by the claim theorems -/

/-- The spaced tabular sample line of the statement (matches pattern 1 and
also the fallback pattern 6). -/
def spacedLine : String :=
  "Las Condes 19/07/2025 Mercadopago *sociedad A2 89.990 89.990 01/01 sep-2025 89.990"

/-- The reversal (anulación) sample line with a negative trailing amount. -/
def reversalLine : String :=
  "06/08/2025Anulacion pago automatico abono T17.040-17.04001/01sep-2025-17.040"

/-- A line whose date token `31/06/2025` passes the range checks but does
not name a calendar day (June has 30 days). -/
def rolloverLine : String :=
  "31/06/2025Pago automatico seg auto T113.678113.67801/01sep-2025113.678"

/-- Chronologically sorted monthly trend, modelled from the spec sentence
"monthly trend = transactions bucketed by calendar month with per-bucket
income/expense sums, sorted chronologically": same buckets and rounding as
`generateMonthlyTrend`, but ordered by the chronological `YYYY-MM` bucket
key (not by the formatted label) and without the 6-entry cap.  Used only
to compare the code against the spec. -/
def monthlyTrendChrono (transactions : List ATxn) : List MonthEntry :=
  let monthlyData := transactions.foldl
    (fun acc t => addMonth acc (monthKeyOf t.date) (t.type == TxType.income) t.amount) []
  let sorted := jsSort (fun a b => strLtB a.1 b.1) monthlyData
  sorted.map (fun e =>
    { month := formatMonth e.1, income := roundJS e.2.1, expenses := roundJS e.2.2 : MonthEntry })

/-- Two-month input exhibiting the ordering of the monthly trend. -/
def trendInput : List ATxn :=
  [⟨100, "Other", .income, ⟨2024, 12, 5⟩⟩, ⟨50, "Other", .income, ⟨2025, 8, 3⟩⟩]

/-- Fixed metrics record with a savings rate of exactly 20. -/
def metricsAt20 : Analysis :=
  { totalIncome := 100, totalExpenses := 80, totalSavings := 20, savingsRate := 20,
    categories := [], monthlyTrend := [], transactionCount := 2,
    averageTransactionAmount := 50, transactionFrequency := [], dateRange := none }

/-- A deterministic stand-in for the `Math.random` id stream. -/
def demoRand : Nat → String := fun n => toString n

/-- One-element categorizer input. -/
def demoRecord : TxRecord := ⟨⟨2025, 1, 1⟩, "abc", 5⟩

/-- Categorizer input whose raw amount is exactly zero. -/
def zeroRecord : TxRecord := ⟨⟨2025, 2, 2⟩, "xyz", 0⟩

/-- The transaction `categorizeTransactions` builds from `zeroRecord` with
the `demoRand` stream at counter 0. -/
def zeroCatTxn : CategorizedTransaction :=
  { id := "txn_0", date := ⟨2025, 2, 2⟩, description := "xyz", amount := 0,
    category := "Other", type := .income, originalAmount := 0 }

/-- Total income as the claim words it: the sum of the amounts `> 0`. -/
def incomeOf (ts : List ATxn) : ℚ :=
  ((ts.filter (fun t => decide (0 < t.amount))).map (fun t => t.amount)).sum

/-- Total expenses as the claim words it: the magnitude of the sum of the
amounts `< 0`. -/
def expensesOf (ts : List ATxn) : ℚ :=
  |((ts.filter (fun t => decide (t.amount < 0))).map (fun t => t.amount)).sum|

/-- One-expense input used by the C7 witness. -/
def c7Input : List ATxn := [⟨1, "A", .expense, ⟨2025, 1, 1⟩⟩]

/-! ## Theorems -/

/-! ### Rounding and calendar lemmas -/

theorem abs_roundJS_sub_le (q : ℚ) : |(roundJS q : ℚ) - q| ≤ 1/2 := by
  have h1 : (roundJS q : ℚ) ≤ q + 1/2 := Int.floor_le (q + 1/2)
  have h2 : q + 1/2 - 1 < (roundJS q : ℚ) := Int.sub_one_lt_floor (q + 1/2)
  rw [abs_le]
  constructor <;> linarith

theorem abs_round2_sub_le (q : ℚ) : |round2 q - q| ≤ 1/200 := by
  have h := abs_roundJS_sub_le (q * 100)
  have h2 : round2 q - q = ((roundJS (q * 100) : ℚ) - q * 100) / 100 := by
    rw [round2]; ring
  rw [h2, abs_div, abs_of_pos (show (0:ℚ) < 100 by norm_num)]
  linarith

theorem daysInMonth_ge (y m : Int) : 28 ≤ daysInMonth y m := by
  unfold daysInMonth
  split
  · split <;> norm_num
  · split <;> norm_num

theorem daysInMonth_le (y m : Int) : daysInMonth y m ≤ 31 := by
  unfold daysInMonth
  split
  · split <;> norm_num
  · split <;> norm_num

/-- For an in-range month and a day in `1 .. daysInMonth`, no rollover happens. -/
theorem jsMakeDate_eq_self (y m d : Int) (hm1 : 1 ≤ m) (hm2 : m ≤ 12)
    (hd1 : 1 ≤ d) (hd2 : d ≤ daysInMonth y m) : jsMakeDate y m d = ⟨y, m, d⟩ := by
  have h0 : (0:Int) ≤ m - 1 := by omega
  have h12 : m - 1 < 12 := by omega
  have hdiv : (m - 1).ediv 12 = 0 := Int.ediv_eq_zero_of_lt h0 h12
  have hmod : (m - 1).emod 12 = m - 1 := Int.emod_eq_of_lt h0 h12
  unfold jsMakeDate
  simp only [hdiv, hmod]
  have hy : y + 0 = y := by ring
  have hm : m - 1 + 1 = m := by ring
  rw [hy, hm]
  unfold normDays
  have hnd : ¬ d < 1 := by omega
  have hnd2 : ¬ daysInMonth y m < d := by omega
  simp [hnd, hnd2]

/-- Conversely, if the constructor does not move an in-range day/month pair,
the day was inside the month. -/
theorem day_le_daysInMonth_of_fix (y m d : Int) (hm1 : 1 ≤ m) (hm2 : m ≤ 12)
    (hd1 : 1 ≤ d) (hd31 : d ≤ 31) (heq : jsMakeDate y m d = ⟨y, m, d⟩) :
    d ≤ daysInMonth y m := by
  by_contra hgt
  push_neg at hgt
  have h0 : (0:Int) ≤ m - 1 := by omega
  have h12 : m - 1 < 12 := by omega
  have hdiv : (m - 1).ediv 12 = 0 := Int.ediv_eq_zero_of_lt h0 h12
  have hmod : (m - 1).emod 12 = m - 1 := Int.emod_eq_of_lt h0 h12
  rw [jsMakeDate] at heq
  simp only [hdiv, hmod] at heq
  have hy : y + 0 = y := by ring
  have hm : m - 1 + 1 = m := by ring
  rw [hy, hm] at heq
  rw [normDays] at heq
  have hnd : ¬ d < 1 := by omega
  rw [if_neg hnd, if_pos hgt] at heq
  set y' := if m = 12 then y + 1 else y with hy'
  set m' := if m = 12 then 1 else m + 1 with hm'
  have hd'1 : 1 ≤ d - daysInMonth y m := by omega
  have hd'2 : d - daysInMonth y m ≤ 3 := by
    have := daysInMonth_ge y m
    omega
  have hfix : normDays 7 y' m' (d - daysInMonth y m) = ⟨y', m', d - daysInMonth y m⟩ := by
    rw [normDays]
    have h1 : ¬ d - daysInMonth y m < 1 := by omega
    have h2 : ¬ daysInMonth y' m' < d - daysInMonth y m := by
      have := daysInMonth_ge y' m'
      omega
    simp [h1, h2]
  rw [hfix] at heq
  have hmm : m' = m := congrArg JSDate.month heq
  have hyy : y' = y := congrArg JSDate.year heq
  by_cases h12' : m = 12
  · rw [hm', if_pos h12'] at hmm
    omega
  · rw [hm', if_neg h12'] at hmm
    omega

/-! ### Lemmas about `parseDate` -/

theorem validateDMY_sound (d m y : Int) (dt : JSDate) (h : validateDMY d m y = some dt) :
    1 ≤ dt.month ∧ dt.month ≤ 12 ∧ 1 ≤ dt.day ∧ dt.day ≤ daysInMonth dt.year dt.month := by
  simp only [validateDMY] at h
  split at h
  · next hrange =>
    split at h
    · next hfix =>
      obtain ⟨hm1, hm2, hd1, hd31, -, -⟩ := hrange
      have hdt : dt = ⟨y, m, d⟩ := by
        have := Option.some_injective _ h
        rw [← this, hfix]
      subst hdt
      refine ⟨hm1, hm2, hd1, ?_⟩
      exact day_le_daysInMonth_of_fix y m d hm1 hm2 hd1 hd31 hfix
    · exact absurd h (by simp)
  · exact absurd h (by simp)

theorem parseDateAttempt12_sound (s : String) (dt : JSDate)
    (h : parseDateAttempt12 s = some dt) :
    1 ≤ dt.month ∧ dt.month ≤ 12 ∧ 1 ≤ dt.day ∧ dt.day ≤ daysInMonth dt.year dt.month := by
  simp only [parseDateAttempt12] at h
  split at h
  · exact absurd h (by simp)
  · split at h
    · exact validateDMY_sound _ _ _ _ h
    · split at h
      · exact validateDMY_sound _ _ _ _ h
      · exact absurd h (by simp)

theorem parseDateAttemptY_sound (s : String) (dt : JSDate)
    (h : parseDateAttemptY s = some dt) :
    1 ≤ dt.month ∧ dt.month ≤ 12 ∧ 1 ≤ dt.day ∧ dt.day ≤ daysInMonth dt.year dt.month := by
  simp only [parseDateAttemptY] at h
  split at h
  · exact absurd h (by simp)
  · exact validateDMY_sound _ _ _ _ h

theorem parseDateAttempt2_sound (s : String) (dt : JSDate)
    (h : parseDateAttempt2 s = some dt) :
    1 ≤ dt.month ∧ dt.month ≤ 12 ∧ 1 ≤ dt.day ∧ dt.day ≤ daysInMonth dt.year dt.month := by
  simp only [parseDateAttempt2] at h
  split at h
  · exact absurd h (by simp)
  · exact validateDMY_sound _ _ _ _ h

theorem parseDate_sound (s : String) (dt : JSDate) (h : parseDate s = some dt) :
    1 ≤ dt.month ∧ dt.month ≤ 12 ∧ 1 ≤ dt.day ∧ dt.day ≤ daysInMonth dt.year dt.month := by
  simp only [parseDate] at h
  rcases h12 : parseDateAttempt12 (cleanDateString s) with _ | d1
  · simp only [h12] at h
    rcases hY : parseDateAttemptY (cleanDateString s) with _ | dY
    · simp only [hY] at h
      exact parseDateAttempt2_sound _ _ h
    · simp only [hY] at h
      cases h
      exact parseDateAttemptY_sound _ _ hY
  · simp only [h12] at h
    cases h
    exact parseDateAttempt12_sound _ _ h12

/-! ### Claim C1 -/

/-- C1.  The spec claims the reversal/adjustment line
`06/08/2025Anulacion pago automatico abono T17.040-17.04001/01sep-2025-17.040`
yields one transaction with signed amount −17040.  The line does match the
reversal-capable grammar (pattern 4/5, whose amount groups admit a leading
minus), but the validation `amount <= 0` then discards every parse whose
trailing amount is negative, so `parseCreditCardTransaction` returns
nothing: the code contradicts the purpose of its own reversal grammar. -/
theorem c1_reversal_line_rejected :
    (jsMatchFull pattern4cc reversalLine).isSome = true ∧
    parseCreditCardTransaction reversalLine = none :=
  ⟨by rfl, by rfl⟩

/-! ### Claim C3 -/

/-- C3.  First-match-wins: whenever the spaced grammar (pattern 1) matches a
line — in particular on every line also matched by the permissive fallback
(pattern 6) — the parser commits to pattern 1 and its field extraction
(date = group 2, description = group 3, final amount = group 7); the
fallback's extraction is never consulted. -/
theorem c3_first_grammar_wins (line : String)
    (h1 : (jsMatchFull pattern1cc line).isSome = true)
    (_h6 : (jsMatchFull pattern6cc line).isSome = true) :
    parseCreditCardTransaction line =
      (jsMatchFull pattern1cc line).bind (fun m =>
        mkCreditTransaction (capStr line m 2) (capStr line m 3) (capStr line m 7)) := by
  obtain ⟨m, hm⟩ := Option.isSome_iff_exists.mp h1
  simp [parseCreditCardTransaction, ccPatterns, firstCCMatchAux, hm, extractFields]

/-- Witness for C3 at the spaced sample line, which both pattern 1 and
pattern 6 match. -/
theorem c3_first_grammar_wins_witness :
    (jsMatchFull pattern1cc spacedLine).isSome = true ∧
    (jsMatchFull pattern6cc spacedLine).isSome = true ∧
    parseCreditCardTransaction spacedLine =
      (jsMatchFull pattern1cc spacedLine).bind (fun m =>
        mkCreditTransaction (capStr spacedLine m 2) (capStr spacedLine m 3)
          (capStr spacedLine m 7)) :=
  ⟨by rfl, by rfl, c3_first_grammar_wins spacedLine (by rfl) (by rfl)⟩

/-! ### Claim C5 -/

/-- C5, counterexample.  The claim states that a date token that does not
round-trip through the calendar (such as day 31 in the 30-day June) causes
the candidate to be rejected.  `parseCreditCardTransaction` only range-checks
day and month; on this line it accepts `31/06/2025` and returns a
transaction carrying the rolled-over date 2025-07-01 — a shifted date, not
a rejection. -/
theorem c5_rollover_not_rejected :
    parseCreditCardTransaction rolloverLine =
      some ⟨⟨2025, 7, 1⟩, "Pago automatico seg auto", -113678⟩ := by rfl

/-- C5, amended.  The range checks `1 ≤ day ≤ 31` and `1 ≤ month ≤ 12` hold
in the credit-card parser: an out-of-range token is rejected.  The calendar
round-trip check is enforced only by `parseDate` of the generic file
processor: every date it returns satisfies the parsed ranges and names an
actual calendar day (`day ≤ daysInMonth year month`).  The credit-card
parser does not perform the round-trip check (see the counterexample). -/
theorem c5_date_validation_amended :
    (∀ s dt, parseDate s = some dt →
      1 ≤ dt.month ∧ dt.month ≤ 12 ∧ 1 ≤ dt.day ∧ dt.day ≤ daysInMonth dt.year dt.month) ∧
    (∀ dateStr rawDescription finalAmount : String,
      ((natOfDigits ((splitChar '/' dateStr.toList).getD 1 []) : Int) < 1 ∨
       12 < (natOfDigits ((splitChar '/' dateStr.toList).getD 1 []) : Int) ∨
       (natOfDigits ((splitChar '/' dateStr.toList).getD 0 []) : Int) < 1 ∨
       31 < (natOfDigits ((splitChar '/' dateStr.toList).getD 0 []) : Int)) →
      mkCreditTransaction dateStr rawDescription finalAmount = none) := by
  constructor
  · exact parseDate_sound
  · intro dateStr rawDescription finalAmount h
    rw [mkCreditTransaction]
    simp only []
    rw [if_pos h]

/-- Witness for C5: `parseDate` accepts the real date 19/07/2025 (and the
conclusion of the theorem holds there), and an out-of-range month token is
rejected by the credit-card validation. -/
theorem c5_date_validation_witness :
    (1 ≤ (2025 : Int) ∧ True) ∧
    (1 ≤ (⟨2025, 7, 19⟩ : JSDate).month ∧ (⟨2025, 7, 19⟩ : JSDate).month ≤ 12 ∧
      1 ≤ (⟨2025, 7, 19⟩ : JSDate).day ∧
      (⟨2025, 7, 19⟩ : JSDate).day ≤ daysInMonth 2025 7) ∧
    mkCreditTransaction "31/13/2025" "Pago de prueba" "1.000" = none :=
  ⟨⟨by norm_num, trivial⟩,
   c5_date_validation_amended.1 "19/07/2025" ⟨2025, 7, 19⟩ (by rfl),
   c5_date_validation_amended.2 "31/13/2025" "Pago de prueba" "1.000" (by decide)⟩

/-! ### Lemmas about deduplication -/

theorem removeDuplicateTransactionsAux_eq (ts : List FPTransaction) :
    ∀ seen, removeDuplicateTransactionsAux seen ts =
      keepFirstByKey (ts.filter (fun t => decide (txnKey t ∉ seen))) := by
  induction ts with
  | nil => intro seen; simp [removeDuplicateTransactionsAux, keepFirstByKey]
  | cons t ts ih =>
    intro seen
    rw [removeDuplicateTransactionsAux]
    by_cases h : txnKey t ∈ seen
    · rw [if_pos h, ih seen, List.filter_cons_of_neg (by simpa using h)]
    · rw [if_neg h, ih (txnKey t :: seen), List.filter_cons_of_pos (by simpa using h)]
      simp only [keepFirstByKey]
      congr 1
      refine congrArg keepFirstByKey (Eq.trans ?_ (List.filter_filter _ _).symm)
      apply List.filter_congr
      intro u _
      by_cases h1 : txnKey u = txnKey t <;> by_cases h2 : txnKey u ∈ seen <;>
        simp [List.mem_cons, h1, h2]

theorem mem_of_mem_keepFirstByKey (u : FPTransaction) (l : List FPTransaction)
    (h : u ∈ keepFirstByKey l) : u ∈ l := by
  induction l using keepFirstByKey.induct with
  | case1 => simp [keepFirstByKey] at h
  | case2 t ts ih =>
    simp only [keepFirstByKey] at h
    rcases List.mem_cons.mp h with h1 | h1
    · simp [h1]
    · exact List.mem_cons_of_mem t (List.mem_of_mem_filter (ih h1))

theorem keepFirstByKey_idem (l : List FPTransaction) :
    keepFirstByKey (keepFirstByKey l) = keepFirstByKey l := by
  induction l using keepFirstByKey.induct with
  | case1 => simp [keepFirstByKey]
  | case2 t ts ih =>
    simp only [keepFirstByKey]
    congr 1
    have h1 : ∀ u ∈ keepFirstByKey (ts.filter (fun u => decide (¬ txnKey u = txnKey t))),
        (fun u => decide (¬ txnKey u = txnKey t)) u = true := fun u hu =>
      (List.mem_filter.mp (mem_of_mem_keepFirstByKey u _ hu)).2
    rw [List.filter_eq_self.mpr h1, ih]

/-! ### Claim C4 -/

/-- C4, counterexample.  Duplicate detection compares the underscore-joined
key `date + "_" + description + "_" + amount`, not the field triple: these
two transactions differ in date and description yet share the key
`d_e_f_1`, so the second is dropped as a duplicate of the first, refuting
"duplicates exactly when the (date, description, amount) triples are all
equal". -/
theorem c4_dedup_key_collision :
    removeDuplicateTransactions [⟨"d_e", "f", 1⟩, ⟨"d", "e_f", 1⟩] = [⟨"d_e", "f", 1⟩] ∧
    txnKey ⟨"d_e", "f", 1⟩ = txnKey ⟨"d", "e_f", 1⟩ ∧
    (⟨"d_e", "f", 1⟩ : FPTransaction) ≠ ⟨"d", "e_f", 1⟩ := by
  refine ⟨by rfl, by rfl, ?_⟩
  intro h
  exact absurd (congrArg FPTransaction.date h) (by decide)

/-- C4, amended.  `removeDuplicateTransactions` treats two transactions as
duplicates exactly when their underscore-joined key strings coincide
(equal triples always coincide, but distinct triples may collide when the
fields themselves contain underscores); it keeps the first occurrence of
every key in input order, and it is idempotent. -/
theorem c4_dedup_keeps_first_and_idem (ts : List FPTransaction) :
    removeDuplicateTransactions ts = keepFirstByKey ts ∧
    removeDuplicateTransactions (removeDuplicateTransactions ts) =
      removeDuplicateTransactions ts := by
  have hbase : ∀ l : List FPTransaction, removeDuplicateTransactions l = keepFirstByKey l := by
    intro l
    rw [removeDuplicateTransactions, removeDuplicateTransactionsAux_eq]
    congr 1
    apply List.filter_eq_self.mpr
    intro u _
    simp
  refine ⟨hbase ts, ?_⟩
  rw [hbase ts, hbase (keepFirstByKey ts), keepFirstByKey_idem]

/-! ### Claim C10 -/

/-- C10.  Every transaction produced by `categorizeTransactions` stores the
absolute value of the raw amount in `amount` (the sign surviving only in
`originalAmount`) and is typed `income` exactly when the raw amount is
nonnegative — in particular a raw amount of exactly 0 is typed income. -/
theorem c10_categorize_invariant (rand : Nat → String) (ts : List TxRecord) (s : Nat)
    (t : CategorizedTransaction) (h : t ∈ (categorizeTransactions rand ts s).1) :
    t.amount = |t.originalAmount| ∧ (t.type = TxType.income ↔ 0 ≤ t.originalAmount) := by
  induction ts generalizing s with
  | nil => simp [categorizeTransactions] at h
  | cons r ts ih =>
    simp only [categorizeTransactions] at h
    rcases List.mem_cons.mp h with h1 | h1
    · subst h1
      refine ⟨rfl, ?_⟩
      by_cases h0 : (0:ℚ) ≤ r.amount <;> simp [h0]
    · exact ih (s + 1) h1

/-- Witness for C10 at a zero-amount record: the produced transaction is in
the output, its amount is the absolute value of the original, and it is
typed income. -/
theorem c10_categorize_invariant_witness :
    zeroCatTxn ∈ (categorizeTransactions demoRand [zeroRecord] 0).1 ∧
    (zeroCatTxn.amount = |zeroCatTxn.originalAmount| ∧
      (zeroCatTxn.type = TxType.income ↔ 0 ≤ zeroCatTxn.originalAmount)) :=
  ⟨by decide, c10_categorize_invariant demoRand [zeroRecord] 0 zeroCatTxn (by decide)⟩

/-! ### Claim C9 -/

/-- C9, counterexample.  Transaction ids come from `Math.random`: running
the categorizer twice on the same single-record input in the same process
(the second run starting from the PRNG state the first run left behind)
yields different id fields, so two runs do not produce identical results. -/
theorem c9_ids_differ_between_runs :
    ((categorizeTransactions demoRand [demoRecord] 0).1 ≠
      (categorizeTransactions demoRand [demoRecord]
        ((categorizeTransactions demoRand [demoRecord] 0).2)).1) ∧
    ((categorizeTransactions demoRand [demoRecord] 0).1.map (fun t => t.id) = ["txn_0"]) ∧
    ((categorizeTransactions demoRand [demoRecord]
        ((categorizeTransactions demoRand [demoRecord] 0).2)).1.map (fun t => t.id) =
      ["txn_1"]) := by
  refine ⟨?_, by rfl, by rfl⟩
  decide

/-- C9, amended.  The pipeline is deterministic in everything except the
transaction ids: for any two PRNG streams and starting states, the
categorized transactions agree after erasing ids, and the whole analysis
(which never reads ids) is identical. -/
theorem c9_deterministic_modulo_ids (r1 r2 : Nat → String) (s1 s2 : Nat)
    (ts : List TxRecord) :
    (categorizeTransactions r1 ts s1).1.map toATxn =
      (categorizeTransactions r2 ts s2).1.map toATxn ∧
    generateAnalysis ((categorizeTransactions r1 ts s1).1.map toATxn) =
      generateAnalysis ((categorizeTransactions r2 ts s2).1.map toATxn) := by
  have hmap : ∀ u v : Nat, (categorizeTransactions r1 ts u).1.map toATxn =
      (categorizeTransactions r2 ts v).1.map toATxn := by
    induction ts with
    | nil => intro u v; simp [categorizeTransactions]
    | cons t ts ih =>
      intro u v
      simp only [categorizeTransactions, List.map_cons]
      rw [ih (u + 1) (v + 1)]
      rfl
  exact ⟨hmap s1 s2, by rw [hmap s1 s2]⟩

/-! ### Claim C2 -/

theorem foldl_add_map (f : ATxn → ℚ) :
    ∀ (l : List ATxn) (a : ℚ), l.foldl (fun s t => s + f t) a = a + (l.map f).sum := by
  intro l
  induction l with
  | nil => intro a; simp
  | cons t l ih =>
    intro a
    rw [List.foldl_cons, ih, List.map_cons, List.sum_cons]
    ring

/-- C2.  The totals of `generateAnalysis` are the rounded claim-level sums:
`totalIncome`/`totalExpenses` are the 2-decimal roundings of the sum of
positive amounts and of the magnitude of the sum of negative amounts,
`totalSavings` is the rounding of their exact difference — hence
`totalIncome − totalExpenses = totalSavings` up to the 2-decimal rounding
slack (at most 3/200) — and `savingsRate` is the rounding of
`savings / income × 100` when income is positive and `0` otherwise (in
particular when income is 0). -/
theorem c2_analysis_totals (ts : List ATxn) :
    (generateAnalysis ts).totalIncome = round2 (incomeOf ts) ∧
    (generateAnalysis ts).totalExpenses = round2 (expensesOf ts) ∧
    (generateAnalysis ts).totalSavings = round2 (incomeOf ts - expensesOf ts) ∧
    |(generateAnalysis ts).totalIncome - (generateAnalysis ts).totalExpenses -
      (generateAnalysis ts).totalSavings| ≤ 3/200 ∧
    (generateAnalysis ts).savingsRate =
      round2 (if 0 < incomeOf ts then (incomeOf ts - expensesOf ts) / incomeOf ts * 100
        else 0) := by
  have hround : ∀ i e : ℚ, |round2 i - round2 e - round2 (i - e)| ≤ 3/200 := by
    intro i e
    have h1 := abs_round2_sub_le i
    have h2 := abs_round2_sub_le e
    have h3 := abs_round2_sub_le (i - e)
    rw [abs_le] at h1 h2 h3 ⊢
    constructor <;> linarith [h1.1, h1.2, h2.1, h2.2, h3.1, h3.2]
  have hz : round2 0 = 0 := by
    rw [round2, roundJS]
    norm_num
  by_cases hemp : ts.isEmpty
  · have hnil : ts = [] := List.isEmpty_iff.mp hemp
    subst hnil
    rw [generateAnalysis]
    simp only [List.isEmpty_nil, if_pos]
    have h0 : incomeOf [] = 0 := by simp [incomeOf]
    have h0e : expensesOf [] = 0 := by simp [expensesOf]
    rw [h0, h0e]
    refine ⟨hz.symm, hz.symm, by simpa using hz.symm, by norm_num, ?_⟩
    simpa using hz.symm
  · rw [generateAnalysis, if_neg (by simpa using hemp)]
    simp only
    rw [foldl_add_map, foldl_add_map]
    have hinc : 0 + ((ts.filter (fun t => decide (0 < t.amount))).map (fun t => t.amount)).sum
        = incomeOf ts := by rw [incomeOf]; ring
    have hexp : |0 + ((ts.filter (fun t => decide (t.amount < 0))).map
        (fun t => t.amount)).sum| = expensesOf ts := by rw [expensesOf]; ring_nf
    rw [hinc, hexp]
    exact ⟨rfl, rfl, rfl, hround _ _, rfl⟩

/-! ### Claim C6 -/

/-- C6.  The monthly trend is not chronological: `generateMonthlyTrend`
sorts the buckets by `localeCompare` on the already-formatted `Mmm YYYY`
labels (its own comment says "sort by date"), so on an input with months
2024-12 and 2025-08 it lists "Aug 2025" before "Dec 2024", while the
chronological bucket order of the spec (`monthlyTrendChrono`) is the
reverse. -/
theorem c6_monthly_trend_not_chronological :
    generateMonthlyTrend trendInput =
      [⟨"Aug 2025", 50, 0⟩, ⟨"Dec 2024", 100, 0⟩] ∧
    monthlyTrendChrono trendInput =
      [⟨"Dec 2024", 100, 0⟩, ⟨"Aug 2025", 50, 0⟩] ∧
    generateMonthlyTrend trendInput ≠ monthlyTrendChrono trendInput := by
  have k1 : monthKeyOf ⟨2024, 12, 5⟩ = "2024-12" := by rfl
  have k2 : monthKeyOf ⟨2025, 8, 3⟩ = "2025-08" := by rfl
  have hne : ("2024-12" = "2025-08") = False := by simp
  have f1 : formatMonth "2024-12" = "Dec 2024" := by rfl
  have f2 : formatMonth "2025-08" = "Aug 2025" := by rfl
  have hlt : strLtB "Aug 2025" "Dec 2024" = true := by rfl
  have hlt2 : strLtB "2025-08" "2024-12" = false := by rfl
  have r0 : roundJS (0:ℚ) = 0 := by norm_num [roundJS]
  have r100 : roundJS (100:ℚ) = 100 := by norm_num [roundJS]
  have r50 : roundJS (50:ℚ) = 50 := by norm_num [roundJS]
  have h1 : generateMonthlyTrend trendInput =
      [⟨"Aug 2025", 50, 0⟩, ⟨"Dec 2024", 100, 0⟩] := by
    simp only [generateMonthlyTrend, trendInput, List.foldl_cons, List.foldl_nil,
      k1, k2, addMonth, hne, List.map_cons, List.map_nil, jsSort]
    simp [insSorted, f1, f2, hlt, r0, r100, r50]
  have h2 : monthlyTrendChrono trendInput =
      [⟨"Dec 2024", 100, 0⟩, ⟨"Aug 2025", 50, 0⟩] := by
    simp only [monthlyTrendChrono, trendInput, List.foldl_cons, List.foldl_nil,
      k1, k2, addMonth, hne, List.map_cons, List.map_nil, jsSort]
    simp [insSorted, f1, f2, hlt2, r0, r100, r50]
  refine ⟨h1, h2, ?_⟩
  rw [h1, h2]
  decide

/-! ### Claim C8 -/

theorem catRecsFor_length_le (c : CategoryStatJS) : (catRecsFor c).length ≤ 1 := by
  rw [catRecsFor]
  by_cases h1 : c.name = "Food & Dining" ∧ 15 < c.percentage
  · have h2 : ¬ (c.name = "Transportation" ∧ 20 < c.percentage) := by
      rintro ⟨hx, -⟩
      rw [h1.1] at hx
      exact absurd hx (by decide)
    have h3 : ¬ (c.name = "Entertainment" ∧ 10 < c.percentage) := by
      rintro ⟨hx, -⟩
      rw [h1.1] at hx
      exact absurd hx (by decide)
    rw [if_pos h1, if_neg h2, if_neg h3]
    simp
  · rw [if_neg h1]
    by_cases h2 : c.name = "Transportation" ∧ 20 < c.percentage
    · have h3 : ¬ (c.name = "Entertainment" ∧ 10 < c.percentage) := by
        rintro ⟨hx, -⟩
        rw [h2.1] at hx
        exact absurd hx (by decide)
      rw [if_pos h2, if_neg h3]
      simp
    · rw [if_neg h2]
      by_cases h3 : c.name = "Entertainment" ∧ 10 < c.percentage <;> simp [h3]

theorem mem_catRecsFor (c : CategoryStatJS) (r : Recommendation) (h : r ∈ catRecsFor c) :
    r = foodRec c ∨ r = transportRec c ∨ r = entertainmentRec c := by
  rw [catRecsFor] at h
  rcases List.mem_append.mp h with h1 | h1
  · rcases List.mem_append.mp h1 with h2 | h2
    · left
      split at h2
      · simpa using h2
      · simp at h2
    · right; left
      split at h2
      · simpa using h2
      · simp at h2
  · right; right
    split at h1
    · simpa using h1
    · simp at h1

theorem flatMap_catRecsFor_length_le (l : List CategoryStatJS) :
    (l.flatMap catRecsFor).length ≤ l.length := by
  induction l with
  | nil => simp
  | cons c l ih =>
    rw [List.flatMap_cons, List.length_append, List.length_cons]
    have := catRecsFor_length_le c
    omega

theorem mem_take_six_append (x : Recommendation) (l1 l2 : List Recommendation)
    (h : l1.length ≤ 5) : x ∈ (l1 ++ x :: l2).take 6 := by
  rw [List.take_append_eq_append_take, List.take_of_length_le (by omega)]
  obtain ⟨k, hk⟩ : ∃ k, 6 - l1.length = k + 1 := ⟨5 - l1.length, by omega⟩
  rw [hk, List.take_succ_cons]
  exact List.mem_append_right _ (List.mem_cons_self _ _)

/-- C8, counterexample.  At a savings rate of exactly 20 the code produces
neither the improve-savings recommendation (`savings_rate_low`, which
requires `< 20`) nor the praise recommendation (`investment_opportunity`,
which requires `> 20`); the claim says the praise fires at 20. -/
theorem c8_no_praise_at_exactly_20 :
    metricsAt20.savingsRate = 20 ∧
    (generateRecommendations [] metricsAt20).map (fun r => r.id) = ["budget_tracking"] :=
  ⟨by rfl, by rfl⟩

/-- C8, amended.  `generateRecommendations` pushes the improve-savings
recommendation exactly when the savings rate is strictly below 20, and the
praise recommendation exactly when it is strictly above 20; at exactly 20
neither fires (the 6-entry output cap never removes either one). -/
theorem c8_recommendation_thresholds (ts : List ATxn) (m : Analysis) :
    ((∃ r ∈ generateRecommendations ts m, r.id = "savings_rate_low") ↔
      m.savingsRate < 20) ∧
    ((∃ r ∈ generateRecommendations ts m, r.id = "investment_opportunity") ↔
      20 < m.savingsRate) := by
  have hBlen : ((m.categories.take 3).flatMap catRecsFor).length ≤ 3 :=
    le_trans (flatMap_catRecsFor_length_le _) (List.length_take_le 3 m.categories)
  have hBid : ∀ r ∈ (m.categories.take 3).flatMap catRecsFor,
      r.id ≠ "savings_rate_low" ∧ r.id ≠ "investment_opportunity" := by
    intro r hr
    obtain ⟨c, -, hc⟩ := List.mem_flatMap.mp hr
    rcases mem_catRecsFor c r hc with h | h | h <;> subst h <;>
      exact ⟨by simp [foodRec, transportRec, entertainmentRec],
        by simp [foodRec, transportRec, entertainmentRec]⟩
  rcases lt_trichotomy m.savingsRate 20 with hlt | heq | hgt
  · have hngt : ¬ 20 < m.savingsRate := lt_asymm hlt
    simp only [generateRecommendations, if_pos hlt, if_neg hngt]
    constructor
    · constructor
      · intro _; exact hlt
      · intro _
        refine ⟨savingsLowRec m, ?_, rfl⟩
        exact mem_take_six_append (savingsLowRec m) []
          (((m.categories.take 3).flatMap catRecsFor ++ []) ++ [budgetRec]) (by simp)
    · constructor
      · rintro ⟨r, hr, hid⟩
        exfalso
        have hr' := List.take_subset _ _ hr
        rcases List.mem_append.mp hr' with hr2 | hr2
        · rcases List.mem_append.mp hr2 with hr3 | hr3
          · rcases List.mem_append.mp hr3 with hr4 | hr4
            · rw [List.mem_singleton.mp hr4] at hid
              simp [savingsLowRec] at hid
            · exact absurd hid (hBid r hr4).2
          · simp at hr3
        · rw [List.mem_singleton.mp hr2] at hid
          exact absurd hid (by decide)
      · intro h; exact absurd h hngt
  · have hnlt : ¬ m.savingsRate < 20 := by rw [heq]; exact lt_irrefl 20
    have hngt : ¬ 20 < m.savingsRate := by rw [heq]; exact lt_irrefl 20
    simp only [generateRecommendations, if_neg hnlt, if_neg hngt]
    constructor <;> constructor
    · rintro ⟨r, hr, hid⟩
      exfalso
      have hr' := List.take_subset _ _ hr
      rcases List.mem_append.mp hr' with hr2 | hr2
      · rcases List.mem_append.mp hr2 with hr3 | hr3
        · rcases List.mem_append.mp hr3 with hr4 | hr4
          · simp at hr4
          · exact absurd hid (hBid r hr4).1
        · simp at hr3
      · rw [List.mem_singleton.mp hr2] at hid
        exact absurd hid (by decide)
    · intro h; exact absurd h hnlt
    · rintro ⟨r, hr, hid⟩
      exfalso
      have hr' := List.take_subset _ _ hr
      rcases List.mem_append.mp hr' with hr2 | hr2
      · rcases List.mem_append.mp hr2 with hr3 | hr3
        · rcases List.mem_append.mp hr3 with hr4 | hr4
          · simp at hr4
          · exact absurd hid (hBid r hr4).2
        · simp at hr3
      · rw [List.mem_singleton.mp hr2] at hid
        exact absurd hid (by decide)
    · intro h; exact absurd h hngt
  · have hnlt : ¬ m.savingsRate < 20 := lt_asymm hgt
    simp only [generateRecommendations, if_neg hnlt, if_pos hgt]
    constructor
    · constructor
      · rintro ⟨r, hr, hid⟩
        exfalso
        have hr' := List.take_subset _ _ hr
        rcases List.mem_append.mp hr' with hr2 | hr2
        · rcases List.mem_append.mp hr2 with hr3 | hr3
          · rcases List.mem_append.mp hr3 with hr4 | hr4
            · simp at hr4
            · exact absurd hid (hBid r hr4).1
          · rcases List.mem_cons.mp hr3 with hr4 | hr4
            · rw [hr4] at hid
              exact absurd hid (by decide)
            · split at hr4
              · rw [List.mem_singleton.mp hr4] at hid
                exact absurd hid (by decide)
              · simp at hr4
        · rw [List.mem_singleton.mp hr2] at hid
          exact absurd hid (by decide)
      · intro h; exact absurd h hnlt
    · constructor
      · intro _; exact hgt
      · intro _
        refine ⟨investmentRec, ?_, rfl⟩
        have hmem := mem_take_six_append investmentRec
          ([] ++ (m.categories.take 3).flatMap catRecsFor)
          ((if m.totalExpenses * 6 < m.totalSavings then [indexFundRec] else []) ++ [budgetRec])
          (by simpa using le_trans hBlen (by omega))
        simpa [List.append_assoc] using hmem

/-! ### Lemmas about the TS category stats -/

theorem insSorted_perm (lt : α → α → Bool) (x : α) (l : List α) :
    (insSorted lt x l).Perm (x :: l) := by
  induction l with
  | nil => exact List.Perm.refl _
  | cons y ys ih =>
    rw [insSorted]
    by_cases h : lt x y = true
    · rw [if_pos h]
    · rw [if_neg h]
      exact (ih.cons y).trans (List.Perm.swap x y ys)

theorem jsSortAux_perm (lt : α → α → Bool) (l : List α) :
    ∀ acc, (l.foldl (fun a x => insSorted lt x a) acc).Perm (acc ++ l) := by
  induction l with
  | nil => intro acc; simp
  | cons x l ih =>
    intro acc
    rw [List.foldl_cons]
    refine (ih (insSorted lt x acc)).trans ?_
    refine (((insSorted_perm lt x acc).append_right l).trans ?_)
    exact List.perm_middle.symm

theorem jsSort_perm (lt : α → α → Bool) (l : List α) : (jsSort lt l).Perm l := by
  simpa using jsSortAux_perm lt l []

theorem upsertCat_amount_sum (g : List (String × ℚ × Nat)) (c : String) (a : ℚ) :
    ((upsertCat g c a).map (fun e => e.2.1)).sum = (g.map (fun e => e.2.1)).sum + a := by
  induction g with
  | nil => simp [upsertCat]
  | cons e g ih =>
    obtain ⟨k, a1, n⟩ := e
    rw [upsertCat]
    by_cases h : k = c
    · rw [if_pos h]
      simp only [List.map_cons, List.sum_cons]
      ring
    · rw [if_neg h]
      simp only [List.map_cons, List.sum_cons, ih]
      ring

theorem upsertCat_count (g : List (String × ℚ × Nat)) (c : String) (a : ℚ) (k : String) :
    (((upsertCat g c a).filter (fun e => e.1 == k)).map (fun e => e.2.2)).sum =
      ((g.filter (fun e => e.1 == k)).map (fun e => e.2.2)).sum +
        (if c = k then 1 else 0) := by
  induction g with
  | nil =>
    rw [upsertCat]
    by_cases h : c = k
    · subst h; simp
    · simp [List.filter_cons, h, (by simpa using h : ¬ (c == k) = true)]
  | cons e g ih =>
    obtain ⟨k1, a1, n⟩ := e
    rw [upsertCat]
    by_cases h : k1 = c
    · subst h
      by_cases h2 : k1 = k
      · subst h2
        simp [List.filter_cons]
        omega
      · simp [List.filter_cons, h2, (by simpa using h2 : ¬ (k1 == k) = true)]
    · rw [if_neg h]
      by_cases h2 : k1 = k
      · subst h2
        simp only [List.filter_cons, beq_self_eq_true, if_pos, List.map_cons, List.sum_cons, ih]
        omega
      · simp only [List.filter_cons, (by simpa using h2 : ¬ (k1 == k) = true),
          Bool.false_eq_true, if_false, ih]

theorem upsertCat_keys (g : List (String × ℚ × Nat)) (c : String) (a : ℚ) :
    (upsertCat g c a).map (fun e => e.1) =
      (if c ∈ g.map (fun e => e.1) then g.map (fun e => e.1)
        else g.map (fun e => e.1) ++ [c]) := by
  induction g with
  | nil => simp [upsertCat]
  | cons e g ih =>
    obtain ⟨k1, a1, n⟩ := e
    rw [upsertCat]
    by_cases h : k1 = c
    · subst h
      simp [List.mem_cons]
    · rw [if_neg h]
      simp only [List.map_cons, ih, List.mem_cons]
      have hne : ¬ c = k1 := fun hx => h hx.symm
      by_cases h2 : c ∈ g.map (fun e => e.1) <;> simp [h2, hne]

theorem upsertCat_nodup (g : List (String × ℚ × Nat)) (c : String) (a : ℚ)
    (h : (g.map (fun e => e.1)).Nodup) :
    ((upsertCat g c a).map (fun e => e.1)).Nodup := by
  rw [upsertCat_keys]
  by_cases h2 : c ∈ g.map (fun e => e.1)
  · rwa [if_pos h2]
  · rw [if_neg h2, List.nodup_append]
    refine ⟨h, List.nodup_singleton c, ?_⟩
    intro a ha hb
    rw [List.mem_singleton.mp hb] at ha
    exact h2 ha

theorem foldCat_amount_sum (es : List ATxn) :
    ∀ g, (((es.foldl (fun acc t => upsertCat acc t.category t.amount) g)).map
        (fun e => e.2.1)).sum =
      (g.map (fun e => e.2.1)).sum + (es.map (fun t => t.amount)).sum := by
  induction es with
  | nil => intro g; simp
  | cons t es ih =>
    intro g
    rw [List.foldl_cons, ih, upsertCat_amount_sum, List.map_cons, List.sum_cons]
    ring

theorem foldCat_count (es : List ATxn) (k : String) :
    ∀ g, ((((es.foldl (fun acc t => upsertCat acc t.category t.amount) g)).filter
        (fun e => e.1 == k)).map (fun e => e.2.2)).sum =
      ((g.filter (fun e => e.1 == k)).map (fun e => e.2.2)).sum +
        es.countP (fun t => t.category == k) := by
  induction es with
  | nil => intro g; simp
  | cons t es ih =>
    intro g
    rw [List.foldl_cons, ih, upsertCat_count, List.countP_cons]
    by_cases h : t.category = k
    · simp only [h, beq_self_eq_true, if_pos]
      omega
    · simp only [h, (by simpa using h : ¬ (t.category == k) = true), Bool.false_eq_true,
        if_false]
      omega

theorem foldCat_nodup (es : List ATxn) :
    ∀ g, (g.map (fun e => e.1)).Nodup →
      (((es.foldl (fun acc t => upsertCat acc t.category t.amount) g)).map
        (fun e => e.1)).Nodup := by
  induction es with
  | nil => intro g h; simpa using h
  | cons t es ih =>
    intro g h
    rw [List.foldl_cons]
    exact ih _ (upsertCat_nodup g t.category t.amount h)

theorem filter_key_of_nodup (g : List (String × ℚ × Nat))
    (h : (g.map (fun e => e.1)).Nodup) (e : String × ℚ × Nat) (he : e ∈ g) :
    g.filter (fun x => x.1 == e.1) = [e] := by
  induction g with
  | nil => simp at he
  | cons f g ih =>
    rw [List.map_cons, List.nodup_cons] at h
    rcases List.mem_cons.mp he with h1 | h1
    · subst h1
      rw [List.filter_cons_of_pos (by simp)]
      have hnil : g.filter (fun x => x.1 == e.1) = [] := by
        apply List.filter_eq_nil_iff.mpr
        intro x hx
        simp only [beq_iff_eq]
        intro hx2
        exact h.1 (hx2 ▸ List.mem_map_of_mem (fun e => e.1) hx)
      rw [hnil]
    · have hne : ¬ (f.1 == e.1) = true := by
        simp only [beq_iff_eq]
        intro hx
        exact h.1 (hx ▸ List.mem_map_of_mem (fun e => e.1) h1)
      rw [List.filter_cons, if_neg hne]
      exact ih h.2 h1

theorem sum_map_div_mul (l : List (String × ℚ × Nat)) (T : ℚ) :
    (l.map (fun e => e.2.1 / T * 100)).sum = (l.map (fun e => e.2.1)).sum / T * 100 := by
  induction l with
  | nil => simp
  | cons e l ih =>
    simp only [List.map_cons, List.sum_cons, ih]
    ring

theorem enum_snd_sum (l : List (String × ℚ × Nat)) (h : (String × ℚ × Nat) → ℚ) :
    (l.enum.map (fun p => h p.2)).sum = (l.map h).sum := by
  rw [show (fun p : Nat × (String × ℚ × Nat) => h p.2) = h ∘ Prod.snd from rfl,
    ← List.map_map, List.enum_map_snd]

/-! ### Claim C7 -/

/-- C7.  For pipeline transactions (whose amounts are magnitudes, hence
nonnegative) with a nonzero expense total, the percentages of the TS
`getCategoryStats` breakdown sum to exactly 100, and every entry's
`transactionCount` equals the number of expense transactions classified
into that entry's category. -/
theorem c7_category_stats (ts : List ATxn)
    (hpos : ∀ t ∈ ts, 0 ≤ t.amount)
    (hne : ((ts.filter (fun t => t.type == TxType.expense)).map (fun t => t.amount)).sum ≠ 0) :
    ((getCategoryStats ts).map (fun s => s.percentage)).sum = 100 ∧
    ∀ s ∈ getCategoryStats ts,
      s.transactionCount =
        ts.countP (fun t => t.type == TxType.expense && t.category == s.name) := by
  have hT : 0 < ((ts.filter (fun t => t.type == TxType.expense)).map
      (fun t => t.amount)).sum := by
    have hnn : 0 ≤ ((ts.filter (fun t => t.type == TxType.expense)).map
        (fun t => t.amount)).sum := by
      apply List.sum_nonneg
      intro x hx
      obtain ⟨t, ht, rfl⟩ := List.mem_map.mp hx
      exact hpos t (List.mem_of_mem_filter ht)
    exact lt_of_le_of_ne hnn (Ne.symm hne)
  have hfold : ((ts.filter (fun t => t.type == TxType.expense)).foldl
      (fun s t => s + t.amount) 0) =
      ((ts.filter (fun t => t.type == TxType.expense)).map (fun t => t.amount)).sum := by
    rw [foldl_add_map]
    ring
  have hperm : ∀ L : List CategoryStatTS,
      ((jsSort (fun a b => decide (b.amount < a.amount)) L).map
        (fun s => s.percentage)).sum = (L.map (fun s => s.percentage)).sum :=
    fun L => ((jsSort_perm _ L).map _).sum_eq
  have hpermMem : ∀ (L : List CategoryStatTS) (s : CategoryStatTS),
      s ∈ jsSort (fun a b => decide (b.amount < a.amount)) L ↔ s ∈ L :=
    fun L s => (jsSort_perm _ L).mem_iff
  constructor
  · simp only [getCategoryStats]
    rw [hperm]
    rw [List.map_map]
    have hcomp : ((fun s : CategoryStatTS => s.percentage) ∘ (fun e :
        Nat × (String × ℚ × Nat) =>
        ({ name := e.2.1, amount := round2 e.2.2.1,
           percentage := if 0 < ((ts.filter (fun t => t.type == TxType.expense)).foldl
               (fun s t => s + t.amount) 0) then
             e.2.2.1 / ((ts.filter (fun t => t.type == TxType.expense)).foldl
               (fun s t => s + t.amount) 0) * 100 else 0,
           color := categoryColorsTS.getD (e.1 % categoryColorsTS.length) "",
           transactionCount := e.2.2.2 } : CategoryStatTS))) =
        (fun e : Nat × (String × ℚ × Nat) =>
          if 0 < ((ts.filter (fun t => t.type == TxType.expense)).foldl
              (fun s t => s + t.amount) 0) then
            e.2.2.1 / ((ts.filter (fun t => t.type == TxType.expense)).foldl
              (fun s t => s + t.amount) 0) * 100 else 0) := rfl
    rw [hcomp]
    rw [enum_snd_sum _ (fun en => if 0 < ((ts.filter
        (fun t => t.type == TxType.expense)).foldl (fun s t => s + t.amount) 0) then
      en.2.1 / ((ts.filter (fun t => t.type == TxType.expense)).foldl
        (fun s t => s + t.amount) 0) * 100 else 0)]
    rw [hfold]
    simp only [if_pos hT]
    rw [sum_map_div_mul]
    have hsum := foldCat_amount_sum (ts.filter (fun t => t.type == TxType.expense)) []
    simp only [List.map_nil, List.sum_nil, zero_add] at hsum
    rw [hsum]
    field_simp
  · intro st hst
    simp only [getCategoryStats] at hst
    rw [hpermMem] at hst
    have hst2 := hst
    obtain ⟨p, hp, rfl⟩ := List.mem_map.mp hst2
    have hpe : p.2 ∈ (ts.filter (fun t => t.type == TxType.expense)).foldl
        (fun acc t => upsertCat acc t.category t.amount) [] := by
      have := List.mem_map_of_mem Prod.snd hp
      rwa [List.enum_map_snd] at this
    have hnd := foldCat_nodup (ts.filter (fun t => t.type == TxType.expense)) [] (by simp)
    have hfk := filter_key_of_nodup _ hnd p.2 hpe
    have hcnt := foldCat_count (ts.filter (fun t => t.type == TxType.expense)) p.2.1 []
    rw [hfk] at hcnt
    simp only [List.filter_nil, List.map_nil, List.sum_nil, List.map_cons, List.sum_cons,
      zero_add, Nat.zero_add, Nat.add_zero] at hcnt
    show p.2.2.2 = _
    rw [hcnt, List.countP_filter]
    congr 1
    funext t
    rw [Bool.and_comm]

/-- Witness for C7 at a one-expense input: both hypotheses hold and the
conclusion follows by the theorem. -/
theorem c7_category_stats_witness :
    (∀ t ∈ c7Input, 0 ≤ t.amount) ∧
    ((c7Input.filter (fun t => t.type == TxType.expense)).map (fun t => t.amount)).sum ≠ 0 ∧
    (((getCategoryStats c7Input).map (fun s => s.percentage)).sum = 100 ∧
      ∀ s ∈ getCategoryStats c7Input,
        s.transactionCount =
          c7Input.countP (fun t => t.type == TxType.expense && t.category == s.name)) :=
  ⟨by decide, by simp [c7Input],
   c7_category_stats c7Input (by decide) (by simp [c7Input])⟩

end FinanceAI
